import Mathlib

/-!
Shallow embedding of the Submission Judging & Progress Ranking Engine of the
nagasai-creator-backend repository (src/controllers/scoreController.js and the
SQL schema in src/supabase/migrations).  Pure judging / scoring computations
are translated to Lean functions; the external execution collaborator (the
Piston API) and the persistent store are modelled as explicit parameters and
state values.  JS numbers that can be NaN are modelled as Option values.
-/

/-- Result of one call to the execution collaborator, as built by
executePiston in scoreController.js: a success flag and the captured text. -/
structure ExecResult where
  success : Bool
  output : String
deriving DecidableEq, Repr

/-- Outcome of the network interaction inside executePiston: the fetch throws,
the HTTP response is not ok, the JSON body has no run field, or a run object
with optional output / stdout / stderr strings. -/
inductive PistonOutcome where
  | fetchError (msg : String)
  | httpNotOk
  | noRun
  | runData (output stdout stderr : Option String)
deriving DecidableEq, Repr

/-- JS string disjunction a || b: the first operand unless it is empty
(the only falsy string). -/
def jsOrStr (a b : String) : String := if a == "" then b else a

/-- Model of the JS String.prototype.trim() call: remove whitespace from both
ends of the string.  Implemented over the character list so that it is
executable by kernel reduction. -/
def jsTrim (s : String) : String :=
  ⟨((s.data.dropWhile Char.isWhitespace).reverse.dropWhile Char.isWhitespace).reverse⟩

/-- Keys of the PISTON_LANGUAGES config object in scoreController.js. -/
def PISTON_LANGUAGE_KEYS : List String :=
  ["python", "java", "cpp", "c", "typescript", "php", "ruby", "go", "rust", "kotlin", "swift"]

/-- Embedding of executePiston (scoreController.js lines 105-134).  The
network outcome for this call is supplied as a value of PistonOutcome. -/
def executePiston (language : String) (net : PistonOutcome) : ExecResult :=
  if !(PISTON_LANGUAGE_KEYS.contains language) then
    { success := false, output := "Unsupported language: " ++ language }
  else
    match net with
    | .fetchError msg => { success := false, output := "Execution error: " ++ msg }
    | .httpNotOk => { success := false, output := "Execution service unavailable" }
    | .noRun => { success := false, output := "No output received" }
    | .runData o s e =>
      let out := jsOrStr (o.getD "") (s.getD "")
      let err := e.getD ""
      if err != "" && out == "" then { success := false, output := err }
      else { success := true, output := jsOrStr out err }

/-- The failure modes of the execution collaborator that the judge folds into
a failed test case: fetch error (collaborator unreachable), non-2xx HTTP
response, or a non-empty error stream with an empty combined output. -/
def execFailureMode : PistonOutcome → Bool
  | .fetchError _ => true
  | .httpNotOk => true
  | .noRun => false
  | .runData o s e => (e.getD "" != "") && (jsOrStr (o.getD "") (s.getD "") == "")

/-- One entry of the test_cases array stored in coding_practices; both fields
may be absent (the code guards each with || two single quotes). -/
structure TestCase where
  input : Option String
  expectedOutput : Option String
deriving DecidableEq, Repr

/-- One per-case result record pushed by submitCodingChallenge; the fallback
single-comparison branch records no input. -/
structure CaseResult where
  input : Option String
  expected : String
  actual : String
  passed : Bool
deriving DecidableEq, Repr

/-- The row of coding_practices read by submitCodingChallenge
(select expected_output, test_cases, test_script, language). -/
structure CodingPractice where
  expected_output : Option String
  test_cases : Option (List TestCase)
  test_script : Option String
  language : String
deriving DecidableEq, Repr

/-- Languages treated as web challenges (scoreController.js line 197). -/
def isWebLanguage (language : String) : Bool :=
  ["html", "css", "javascript"].contains language

/-- JS condition cp.test_script && cp.test_script.trim(): the script is a
present, non-blank string. -/
def scriptPresent : Option String → Bool
  | none => false
  | some s => !(s == "") && !(jsTrim s == "")

/-- JS condition testResults && Array.isArray(testResults) &&
testResults.length > 0: a non-empty array of outcomes was supplied. -/
def hasClientResults : Option (List String) → Bool
  | none => false
  | some rs => decide (0 < rs.length)

/-- Web-evaluated branch of submitCodingChallenge (lines 202-220): verdict
passed and the stored output text. -/
def judgeWeb (testScript : Option String) (testResults : Option (List String)) :
    Bool × String :=
  if scriptPresent testScript && hasClientResults testResults then
    let rs := testResults.getD []
    (decide (0 < rs.length) && ((rs.filter (fun r => r == "PASS")).length == rs.length),
     String.intercalate "\n" rs)
  else if scriptPresent testScript then
    (false, "Test results not received")
  else
    (true, "Completed")

/-- One iteration of the test-case loop in submitCodingChallenge
(lines 227-238); exec is the execution collaborator already applied to the
submitted code and the stored language. -/
def runTestCase (exec : String → ExecResult) (tc : TestCase) : CaseResult :=
  let result := exec (tc.input.getD "")
  let expected := jsTrim (tc.expectedOutput.getD "")
  let actual := jsTrim result.output
  { input := some (tc.input.getD ""), expected := expected, actual := actual,
    passed := actual == expected }

/-- Server-executed branch of submitCodingChallenge (lines 221-250): verdict,
stored output text, and the per-case results array. -/
def judgeServer (exec : String → ExecResult) (testCases : List TestCase)
    (expectedOutput : Option String) : Bool × String × List CaseResult :=
  if 0 < testCases.length then
    let results := testCases.map (runTestCase exec)
    let passedCount := (results.filter (fun r => r.passed)).length
    (passedCount == results.length,
     String.intercalate "\n---\n" (results.map (fun r => r.actual)),
     results)
  else
    let result := exec ""
    let actualOutput := jsTrim result.output
    let expected := jsTrim (expectedOutput.getD "")
    let tcPassed := actualOutput == expected
    (tcPassed, actualOutput,
     [{ input := none, expected := expected, actual := actualOutput, passed := tcPassed }])

/-- Verdict computation of submitCodingChallenge (lines 197-250): the passed
flag and output text that are persisted in coding_submissions.  exec models
the execution collaborator as a function of (code, language, stdin). -/
def judgeSubmission (exec : String → String → String → ExecResult)
    (cp : CodingPractice) (code : String) (testResults : Option (List String)) :
    Bool × String :=
  if isWebLanguage cp.language then
    judgeWeb cp.test_script testResults
  else
    let r := judgeServer (fun stdin => exec code cp.language stdin)
      (cp.test_cases.getD []) cp.expected_output
    (r.1, r.2.1)

/-- JS rounding Math.round: round half toward positive infinity. -/
def jsRound (q : ℚ) : ℤ := ⌊q + 1 / 2⌋

/-- One element of the answers array of a practice attempt; the option type
is left abstract since JS compares selectedOption and correctOption with
strict equality of whatever values the client sent. -/
structure Answer (α : Type) where
  selectedOption : α
  correctOption : α
deriving DecidableEq, Repr

/-- Scored data of one practice attempt as computed by submitPracticeAttempt
(lines 298-301).  percentage is an Option: none models the JS NaN that
Math.round((0 / 0) * 100 * 100) / 100 produces when answers is empty. -/
structure AttemptRecord where
  total : Nat
  score : Nat
  percentage : Option ℚ
  passed : Bool
deriving DecidableEq, Repr

/-- Percentage formula Math.round((score / total) * 100 * 100) / 100;
division by a zero total yields NaN in JS, modelled as none. -/
def computePercentage (score total : Nat) : Option ℚ :=
  if total = 0 then none
  else some ((jsRound ((score : ℚ) / (total : ℚ) * 100 * 100) : ℚ) / 100)

/-- The JS comparison percentage >= 80; NaN >= 80 is false. -/
def passedOfPercentage : Option ℚ → Bool
  | some p => decide (80 ≤ p)
  | none => false

/-- Scoring step of submitPracticeAttempt (lines 298-301): total, correct
count, percentage and the passed flag. -/
def gradeAttempt {α : Type} [DecidableEq α] (answers : List (Answer α)) : AttemptRecord :=
  let total := answers.length
  let correctCount := (answers.filter (fun a => decide (a.selectedOption = a.correctOption))).length
  let percentage := computePercentage correctCount total
  { total := total, score := correctCount, percentage := percentage,
    passed := passedOfPercentage percentage }

/-- The shape of the answers field of the request body: absent (or another
falsy value), a truthy non-array value, or an actual array. -/
inductive AnswersInput (α : Type) where
  | missing
  | nonArray
  | array (xs : List (Answer α))
deriving DecidableEq

/-- JS truthiness of the answers value used by the guard !answers. -/
def answersTruthy {α : Type} : AnswersInput α → Bool
  | .missing => false
  | _ => true

/-- The Array.isArray(answers) check. -/
def answersIsArray {α : Type} : AnswersInput α → Bool
  | .array _ => true
  | _ => false

/-- JS truthiness of an optional string (absent or empty is falsy). -/
def jsTruthyStr : Option String → Bool
  | none => false
  | some s => !(s == "")

/-- Request guard of submitPracticeAttempt (line 292): the request is
accepted (not rejected with the 400 validation response) exactly when
topicId is truthy, answers is truthy and answers is an array. -/
def submitPracticeAccepted {α : Type} (topicId : Option String) (answers : AnswersInput α) : Bool :=
  jsTruthyStr topicId && answersTruthy answers && answersIsArray answers

/-- Best-score cache update of submitPracticeAttempt (lines 337-357): the
practice_scores row is overwritten only when there is no current best or the
new percentage strictly exceeds it. -/
def updateBest (currentBest : Option ℚ) (percentage : ℚ) : Option ℚ :=
  match currentBest with
  | none => some percentage
  | some b => if b < percentage then some percentage else some b

/-- Result of the query for the highest stored attempt_number for one
(student, topic) pair (order descending, limit 1, maybeSingle):
none when no attempt exists, otherwise the maximum. -/
def maxAttemptNumber : List Nat → Option Nat
  | [] => none
  | n :: ns => some (List.foldl max n ns)

/-- attemptNumber = (lastAttempt?.attempt_number || 0) + 1 (line 315). -/
def nextAttemptNumber (ns : List Nat) : Nat := (maxAttemptNumber ns).getD 0 + 1

/-- Effect of one sequential submitPracticeAttempt call on the stored list of
attempt numbers for a fixed (student, topic) pair: the insert appends a row
carrying the freshly computed attempt number. -/
def recordAttemptNumbers (ns : List Nat) : List Nat := ns ++ [nextAttemptNumber ns]

/-- One practice_scores row of a learner as read by getMyProgress. -/
structure PracticeScoreRow where
  topic_id : Nat
  percentage : ℚ
deriving DecidableEq

/-- One coding_submissions row of a learner as read by getMyProgress. -/
structure CodingSubmissionRow where
  topic_id : Nat
  passed : Bool
deriving DecidableEq

/-- The stats object computed by getMyProgress (lines 487-502). -/
structure ProgressStats where
  totalPoints : ℤ
  practicePoints : ℤ
  codingPoints : ℤ
  topicsCompleted : Nat
deriving DecidableEq, Repr

/-- Embedding of the stats computation of getMyProgress (lines 487-502):
raw practice points are the sum of best percentages, coding points are 100
per passed submission, topicsCompleted counts distinct topic ids across both
collections (a JS Set built from the concatenation of both id lists). -/
def getMyProgressStats (ps : List PracticeScoreRow) (cs : List CodingSubmissionRow) :
    ProgressStats :=
  let practicePoints := ps.foldl (fun sum p => sum + p.percentage) 0
  let codingPoints : ℤ := ((cs.filter (fun c => c.passed)).length : ℤ) * 100
  let topicsCompleted :=
    ((ps.map (fun p => p.topic_id)) ++ (cs.map (fun c => c.topic_id))).dedup.length
  { totalPoints := jsRound practicePoints + codingPoints,
    practicePoints := jsRound practicePoints,
    codingPoints := codingPoints,
    topicsCompleted := topicsCompleted }

/-- One row of the leaderboard SQL view: a student with totalPoints > 0. -/
structure LeaderboardRow where
  student_id : Nat
  total_points : ℤ
deriving DecidableEq, Repr

/-- Top 50 query of getLeaderboard (order by total_points desc, limit 50);
the view rows are taken in the order the database returns them. -/
def topFifty (view : List LeaderboardRow) : List LeaderboardRow := view.take 50

/-- The maybeSingle query for one student in the leaderboard view
(the view has at most one row per student id, so find? is the row). -/
def findEntry (view : List LeaderboardRow) (sid : Nat) : Option LeaderboardRow :=
  view.find? (fun e => e.student_id == sid)

/-- Rank of the student inside the displayed top-50 list: 1-based position,
none when the student is not among the top 50 (lines 618-630). -/
def rankInTop (view : List LeaderboardRow) (sid : Nat) : Option Nat :=
  match (topFifty view).findIdx? (fun e => e.student_id == sid) with
  | some i => some (i + 1)
  | none => none

/-- Count query .gt(total_points, t): rows of the view with strictly more
points (lines 643-646). -/
def countGreater (view : List LeaderboardRow) (t : ℤ) : Nat :=
  (view.filter (fun e => decide (t < e.total_points))).length

/-- myRank resolution of getLeaderboard (lines 629-653): position in the
top 50 when present; otherwise 1 + the number of students with strictly more
points when the student has a view row; otherwise null. -/
def myRank (view : List LeaderboardRow) (sid : Nat) : Option Nat :=
  match rankInTop view sid with
  | some r => some r
  | none =>
    match findEntry view sid with
    | some e => some (countGreater view e.total_points + 1)
    | none => none

/-- Rounding to two decimal places as the spec words it; to be compared with
the computation of submitPracticeAttempt. -/
def round2 (q : ℚ) : ℚ := (jsRound (q * 100) : ℚ) / 100

/-- Sample stored coding practice for a server-executed challenge. -/
def sampleServerPractice : CodingPractice :=
  { expected_output := none,
    test_cases := some [{ input := some "3 4", expectedOutput := some "7" }],
    test_script := none, language := "python" }

/-- Sample execution collaborator answering 7 on stdin 3 4. -/
def sampleExec : String → String → String → ExecResult :=
  fun _ _ stdin => { success := true, output := if stdin == "3 4" then "7" else "?" }

/-- Sample failing network environment: the collaborator answers the first
stdin with a non-2xx response and the second with output 4. -/
def sampleFailNet : String → PistonOutcome :=
  fun stdin => if stdin == "1" then PistonOutcome.httpNotOk
    else PistonOutcome.runData (some "4") none none

/-- Sample test cases used to exercise the failure-locality theorem. -/
def sampleFailCases : List TestCase :=
  [{ input := some "1", expectedOutput := some "2" },
   { input := some "3", expectedOutput := some "4" }]

/-- Sample leaderboard view with 50 leading students and one student (id 77)
below the displayed window. -/
def sampleLeaderboardView : List LeaderboardRow :=
  (List.range 50).map (fun i => { student_id := i, total_points := (100 : ℤ) })
    ++ [{ student_id := 77, total_points := 40 }]

/-! Helper lemmas about foldl max and the best-score update. -/

theorem foldl_max_mem {α : Type} [LinearOrder α] (ps : List α) :
    ∀ p : α, List.foldl max p ps ∈ p :: ps := by
  induction ps with
  | nil => intro p; simp
  | cons q qs ih =>
    intro p
    rw [List.foldl_cons]
    rcases List.mem_cons.mp (ih (max p q)) with h | h
    · rcases max_choice p q with hm | hm
      · exact List.mem_cons.mpr (Or.inl (h.trans hm))
      · exact List.mem_cons.mpr (Or.inr (List.mem_cons.mpr (Or.inl (h.trans hm))))
    · exact List.mem_cons.mpr (Or.inr (List.mem_cons.mpr (Or.inr h)))

theorem le_foldl_max {α : Type} [LinearOrder α] (ps : List α) :
    ∀ p : α, ∀ x ∈ p :: ps, x ≤ List.foldl max p ps := by
  induction ps with
  | nil =>
    intro p x hx
    rw [List.mem_singleton] at hx
    simp [hx]
  | cons q qs ih =>
    intro p x hx
    rw [List.foldl_cons]
    rcases List.mem_cons.mp hx with rfl | hx2
    · exact le_trans (le_max_left x q) (ih (max x q) _ (List.mem_cons_self _ _))
    · rcases List.mem_cons.mp hx2 with rfl | hx3
      · exact le_trans (le_max_right p x) (ih (max p x) _ (List.mem_cons_self _ _))
      · exact ih (max p q) x (List.mem_cons_of_mem _ hx3)

theorem updateBest_some (b q : ℚ) : updateBest (some b) q = some (max b q) := by
  show (if b < q then some q else some b) = some (max b q)
  rcases lt_or_le b q with h | h
  · rw [if_pos h, max_eq_right h.le]
  · rw [if_neg (not_lt.mpr h), max_eq_left h]

theorem foldl_updateBest_some (ps : List ℚ) :
    ∀ b : ℚ, List.foldl updateBest (some b) ps = some (List.foldl max b ps) := by
  induction ps with
  | nil => intro b; rfl
  | cons q qs ih =>
    intro b
    rw [List.foldl_cons, updateBest_some, ih, List.foldl_cons]

theorem foldl_updateBest_mono (qs : List ℚ) :
    ∀ best : Option ℚ, ∀ x : ℚ, best = some x →
      ∃ y, List.foldl updateBest best qs = some y ∧ x ≤ y := by
  induction qs with
  | nil =>
    intro best x hb
    exact ⟨x, by simp [hb], le_refl x⟩
  | cons q qs ih =>
    intro best x hb
    subst hb
    rw [List.foldl_cons, updateBest_some]
    obtain ⟨y, hy, hxy⟩ := ih (some (max x q)) (max x q) rfl
    exact ⟨y, hy, le_trans (le_max_left x q) hxy⟩

/-- C1: for a web-evaluated challenge, when the stored test script is present
and non-blank and a non-empty clientTestResults array arrives, the verdict
passes exactly when every outcome is PASS and the stored output is the
outcomes joined with newlines; with a script but no results the verdict is
failed with output Test results not received; with no script every
submission is recorded passed with output Completed. -/
theorem judgeSubmission_web_verdict (exec : String → String → String → ExecResult)
    (cp : CodingPractice) (code : String)
    (hweb : isWebLanguage cp.language = true) :
    (∀ rs : List String, scriptPresent cp.test_script = true → rs ≠ [] →
      ((judgeSubmission exec cp code (some rs)).1 = true ↔ ∀ r ∈ rs, r = "PASS")
      ∧ (judgeSubmission exec cp code (some rs)).2 = String.intercalate "\n" rs)
    ∧ (scriptPresent cp.test_script = true →
        judgeSubmission exec cp code none = (false, "Test results not received"))
    ∧ (∀ testResults, scriptPresent cp.test_script = false →
        judgeSubmission exec cp code testResults = (true, "Completed")) := by
  refine ⟨?_, ?_, ?_⟩
  · intro rs hs hrs
    have hlen : 0 < rs.length := List.length_pos.mpr hrs
    constructor
    · simp only [judgeSubmission, hweb, if_true, judgeWeb, hs, hasClientResults,
        hlen, decide_True, Bool.and_self, if_pos, Option.getD_some, Bool.true_and,
        Bool.and_eq_true, decide_eq_true_iff, beq_iff_eq]
      rw [List.filter_length_eq_length]
      simp [hlen]
    · simp [judgeSubmission, hweb, judgeWeb, hs, hasClientResults, hlen]
  · intro hs
    simp [judgeSubmission, hweb, judgeWeb, hs, hasClientResults]
  · intro testResults hs
    simp [judgeSubmission, hweb, judgeWeb, hs]

theorem judgeSubmission_web_verdict_witness :
    isWebLanguage "html" = true
    ∧ scriptPresent (some "check()") = true
    ∧ ((judgeSubmission (fun _ _ _ => { success := true, output := "" })
          { expected_output := none, test_cases := none,
            test_script := some "check()", language := "html" }
          "body" (some ["PASS", "FAIL: x"])).1 = true ↔
        ∀ r ∈ ["PASS", "FAIL: x"], r = "PASS") :=
  ⟨by decide, by decide,
    ((judgeSubmission_web_verdict (fun _ _ _ => { success := true, output := "" })
      { expected_output := none, test_cases := none,
        test_script := some "check()", language := "html" }
      "body" (by decide)).1 ["PASS", "FAIL: x"] (by decide) (by decide)).1⟩

/-- C10: for a web-evaluated challenge the computed verdict (passed flag and
output text) does not depend on the submitted code text. -/
theorem judgeSubmission_web_code_independent (exec : String → String → String → ExecResult)
    (cp : CodingPractice) (testResults : Option (List String)) (code₁ code₂ : String)
    (hweb : isWebLanguage cp.language = true) :
    judgeSubmission exec cp code₁ testResults = judgeSubmission exec cp code₂ testResults := by
  simp [judgeSubmission, hweb]

theorem judgeSubmission_web_code_independent_witness :
    isWebLanguage "css" = true
    ∧ judgeSubmission (fun c _ _ => { success := true, output := c })
        { expected_output := some "x", test_cases := none,
          test_script := none, language := "css" }
        "code one" (some ["FAIL"])
      = judgeSubmission (fun c _ _ => { success := true, output := c })
        { expected_output := some "x", test_cases := none,
          test_script := none, language := "css" }
        "code two" (some ["FAIL"]) :=
  ⟨by decide,
    judgeSubmission_web_code_independent (fun c _ _ => { success := true, output := c })
      { expected_output := some "x", test_cases := none,
        test_script := none, language := "css" }
      (some ["FAIL"]) "code one" "code two" (by decide)⟩

/-- helper: unfolding of judgeSubmission in the non-web branch. -/
theorem judgeSubmission_server_eq (exec : String → String → String → ExecResult)
    (cp : CodingPractice) (code : String) (testResults : Option (List String))
    (hweb : isWebLanguage cp.language = false) :
    judgeSubmission exec cp code testResults
      = ((judgeServer (fun stdin => exec code cp.language stdin) (cp.test_cases.getD [])
            cp.expected_output).1,
         (judgeServer (fun stdin => exec code cp.language stdin) (cp.test_cases.getD [])
            cp.expected_output).2.1) := by
  simp [judgeSubmission, hweb]

/-- helper: unfolding of judgeServer when the test-case list is non-empty. -/
theorem judgeServer_pos (exec : String → ExecResult) (tcs : List TestCase)
    (eo : Option String) (h : 0 < tcs.length) :
    judgeServer exec tcs eo
      = (((tcs.map (runTestCase exec)).filter (fun r => r.passed)).length
           == (tcs.map (runTestCase exec)).length,
         String.intercalate "\n---\n" ((tcs.map (runTestCase exec)).map (fun r => r.actual)),
         tcs.map (runTestCase exec)) := by
  simp [judgeServer, h]

/-- helper: unfolding of judgeServer when the test-case list is empty. -/
theorem judgeServer_nil (exec : String → ExecResult) (eo : Option String) :
    judgeServer exec [] eo
      = (jsTrim (exec "").output == jsTrim (eo.getD ""),
         jsTrim (exec "").output,
         [{ input := none, expected := jsTrim (eo.getD ""), actual := jsTrim (exec "").output,
            passed := jsTrim (exec "").output == jsTrim (eo.getD "") }]) := rfl

/-- C2: for a server-executed challenge with a non-empty testCases list the
code is run once per case with that case input as stdin, a case passes
exactly when the trimmed captured output equals the trimmed expectedOutput,
and the verdict passes exactly when every case passes; with an empty
testCases list the code is run once with empty stdin and the verdict
compares the trimmed output with the trimmed fallback expected_output. -/
theorem judgeSubmission_server_verdict (exec : String → String → String → ExecResult)
    (cp : CodingPractice) (code : String) (testResults : Option (List String))
    (hweb : isWebLanguage cp.language = false) :
    (cp.test_cases.getD [] ≠ [] →
      ((judgeServer (fun stdin => exec code cp.language stdin) (cp.test_cases.getD [])
          cp.expected_output).2.2
        = (cp.test_cases.getD []).map (runTestCase (fun stdin => exec code cp.language stdin)))
      ∧ (∀ tc : TestCase,
          ((runTestCase (fun stdin => exec code cp.language stdin) tc).passed = true ↔
            jsTrim (exec code cp.language (tc.input.getD "")).output
              = jsTrim (tc.expectedOutput.getD ""))
          ∧ (runTestCase (fun stdin => exec code cp.language stdin) tc).actual
              = jsTrim (exec code cp.language (tc.input.getD "")).output)
      ∧ ((judgeSubmission exec cp code testResults).1 = true ↔
          ∀ tc ∈ cp.test_cases.getD [],
            jsTrim (exec code cp.language (tc.input.getD "")).output
              = jsTrim (tc.expectedOutput.getD "")))
    ∧ (cp.test_cases.getD [] = [] →
        ((judgeSubmission exec cp code testResults).1 = true ↔
          jsTrim (exec code cp.language "").output = jsTrim (cp.expected_output.getD ""))) := by
  constructor
  · intro hne
    have hlen : 0 < (cp.test_cases.getD []).length := List.length_pos.mpr hne
    refine ⟨?_, ?_, ?_⟩
    · rw [judgeServer_pos _ _ _ hlen]
    · intro tc
      constructor
      · simp [runTestCase, beq_iff_eq]
      · rfl
    · rw [judgeSubmission_server_eq exec cp code testResults hweb,
        judgeServer_pos _ _ _ hlen]
      rw [beq_iff_eq, List.filter_length_eq_length]
      constructor
      · intro h tc htc
        have := h (runTestCase (fun stdin => exec code cp.language stdin) tc)
          (List.mem_map_of_mem _ htc)
        simpa [runTestCase, beq_iff_eq] using this
      · intro h r hr
        obtain ⟨tc, htc, rfl⟩ := List.mem_map.mp hr
        simpa [runTestCase, beq_iff_eq] using h tc htc
  · intro hemp
    rw [judgeSubmission_server_eq exec cp code testResults hweb, hemp, judgeServer_nil]
    exact beq_iff_eq

theorem judgeSubmission_server_verdict_witness :
    isWebLanguage sampleServerPractice.language = false
    ∧ sampleServerPractice.test_cases.getD [] ≠ []
    ∧ ((judgeSubmission sampleExec sampleServerPractice "print(a+b)" none).1 = true ↔
        ∀ tc ∈ sampleServerPractice.test_cases.getD [],
          jsTrim (sampleExec "print(a+b)" sampleServerPractice.language
              (tc.input.getD "")).output
            = jsTrim (tc.expectedOutput.getD "")) :=
  ⟨by decide, by decide,
    ((judgeSubmission_server_verdict sampleExec sampleServerPractice "print(a+b)" none
        (by decide)).1 (by decide)).2.2⟩

/-- helper: a failing collaborator outcome yields a failed ExecResult. -/
theorem executePiston_failure (language : String) (net : PistonOutcome)
    (hlang : PISTON_LANGUAGE_KEYS.contains language = true)
    (hfail : execFailureMode net = true) :
    (executePiston language net).success = false := by
  have hmem : language ∈ PISTON_LANGUAGE_KEYS := by
    simpa using hlang
  cases net with
  | fetchError msg => simp [executePiston, hmem]
  | httpNotOk => simp [executePiston, hmem]
  | noRun => simp [execFailureMode] at hfail
  | runData o s e =>
    simp only [execFailureMode] at hfail
    simp [executePiston, hmem, hfail]

/-- C8 (amended): during server-side judging an execution failure on one test
case (fetch error, non-2xx HTTP response, or a non-empty error stream with
empty combined output) produces a failed ExecResult whose text becomes that
case's actual output, while the loop still judges every test case (the
results array keeps one entry per case); the case is recorded with passed
false whenever the trimmed failure text differs from the trimmed
expectedOutput — the comparison at line 231 only looks at the text, so a
failure text equal to the expected output would be recorded as passed. -/
theorem judgeServer_execution_failure_localized (net : String → PistonOutcome)
    (language : String) (tcs : List TestCase) (fallback : Option String) (i : Nat)
    (hlang : PISTON_LANGUAGE_KEYS.contains language = true)
    (hi : i < tcs.length)
    (hfail : execFailureMode (net ((tcs.get ⟨i, hi⟩).input.getD "")) = true)
    (hneq : jsTrim (executePiston language (net ((tcs.get ⟨i, hi⟩).input.getD ""))).output
              ≠ jsTrim ((tcs.get ⟨i, hi⟩).expectedOutput.getD "")) :
    (executePiston language (net ((tcs.get ⟨i, hi⟩).input.getD ""))).success = false
    ∧ ((judgeServer (fun stdin => executePiston language (net stdin)) tcs fallback).2.2).length
        = tcs.length
    ∧ ∃ hr : i <
        ((judgeServer (fun stdin => executePiston language (net stdin)) tcs fallback).2.2).length,
        (((judgeServer (fun stdin => executePiston language (net stdin)) tcs fallback).2.2).get
            ⟨i, hr⟩).passed = false
        ∧ (((judgeServer (fun stdin => executePiston language (net stdin)) tcs fallback).2.2).get
            ⟨i, hr⟩).actual
          = jsTrim (executePiston language (net ((tcs.get ⟨i, hi⟩).input.getD ""))).output := by
  have hlen : 0 < tcs.length := lt_of_le_of_lt (Nat.zero_le i) hi
  have hres : (judgeServer (fun stdin => executePiston language (net stdin)) tcs fallback).2.2
      = tcs.map (runTestCase (fun stdin => executePiston language (net stdin))) := by
    rw [judgeServer_pos _ _ _ hlen]
  refine ⟨executePiston_failure language _ hlang hfail, ?_, ?_⟩
  · rw [hres, List.length_map]
  · have hr : i <
        ((judgeServer (fun stdin => executePiston language (net stdin)) tcs fallback).2.2).length := by
      rw [hres, List.length_map]
      exact hi
    have hget : ((judgeServer (fun stdin => executePiston language (net stdin)) tcs fallback).2.2).get
        ⟨i, hr⟩
          = runTestCase (fun stdin => executePiston language (net stdin)) (tcs.get ⟨i, hi⟩) := by
      rw [List.get_of_eq hres ⟨i, hr⟩]
      exact List.get_map _
    refine ⟨hr, ?_, ?_⟩
    · rw [hget]
      exact beq_eq_false_iff_ne.mpr hneq
    · rw [hget]
      rfl

/-- C4: for a non-empty answers list of length N with k matching
selectedOption/correctOption pairs, the recorded attempt carries total N,
score k, percentage round2(k/N*100) and passed exactly when that percentage
is at least 80. -/
theorem recordAttempt_scoring {α : Type} [DecidableEq α] (answers : List (Answer α)) (N k : Nat)
    (hN : answers.length = N) (hpos : 0 < N)
    (hk : (answers.filter (fun a => decide (a.selectedOption = a.correctOption))).length = k) :
    (gradeAttempt answers).total = N
    ∧ (gradeAttempt answers).score = k
    ∧ (gradeAttempt answers).percentage = some (round2 ((k : ℚ) / (N : ℚ) * 100))
    ∧ ((gradeAttempt answers).passed = true ↔ 80 ≤ round2 ((k : ℚ) / (N : ℚ) * 100)) := by
  subst hN
  subst hk
  have hne : answers.length ≠ 0 := Nat.pos_iff_ne_zero.mp hpos
  have hperc : (gradeAttempt answers).percentage
      = some (round2
          (((answers.filter (fun a => decide (a.selectedOption = a.correctOption))).length : ℚ)
            / (answers.length : ℚ) * 100)) := by
    show computePercentage _ _ = _
    rw [computePercentage, if_neg hne]
    rfl
  refine ⟨rfl, rfl, hperc, ?_⟩
  have hpass : (gradeAttempt answers).passed
      = passedOfPercentage ((gradeAttempt answers).percentage) := rfl
  rw [hpass, hperc]
  show decide _ = true ↔ _
  exact decide_eq_true_iff

theorem recordAttempt_scoring_witness :
    ([(⟨1, 1⟩ : Answer Nat), ⟨0, 1⟩].length = 2 ∧ 0 < 2)
    ∧ (gradeAttempt [(⟨1, 1⟩ : Answer Nat), ⟨0, 1⟩]).percentage
        = some (round2 ((1 : ℚ) / (2 : ℚ) * 100))
    ∧ ((gradeAttempt [(⟨1, 1⟩ : Answer Nat), ⟨0, 1⟩]).passed = true ↔
        80 ≤ round2 ((1 : ℚ) / (2 : ℚ) * 100)) :=
  ⟨⟨rfl, by decide⟩,
    (recordAttempt_scoring [⟨1, 1⟩, ⟨0, 1⟩] 2 1 rfl (by decide) (by decide)).2.2.1,
    (recordAttempt_scoring [⟨1, 1⟩, ⟨0, 1⟩] 2 1 rfl (by decide) (by decide)).2.2.2⟩

/-- C3: starting with no stored best score, after any non-empty sequence of
attempts the best-score cache holds exactly the maximum recorded percentage;
a stored best is replaced only by a strictly greater percentage, and the
stored best never decreases under further attempts. -/
theorem practiceBestScore_tracks_max (p : ℚ) (ps : List ℚ) (best : Option ℚ) (qs : List ℚ) :
    List.foldl updateBest none (p :: ps) = some (List.foldl max p ps)
    ∧ List.foldl max p ps ∈ p :: ps
    ∧ (∀ x ∈ p :: ps, x ≤ List.foldl max p ps)
    ∧ (∀ b q : ℚ,
        (¬ b < q → updateBest (some b) q = some b) ∧ (b < q → updateBest (some b) q = some q))
    ∧ (∀ x : ℚ, best = some x → ∃ y, List.foldl updateBest best qs = some y ∧ x ≤ y) := by
  refine ⟨?_, foldl_max_mem ps p, le_foldl_max ps p, ?_, foldl_updateBest_mono qs best⟩
  · rw [List.foldl_cons]
    exact foldl_updateBest_some ps p
  · intro b q
    constructor
    · intro h
      show (if b < q then some q else some b) = some b
      rw [if_neg h]
    · intro h
      show (if b < q then some q else some b) = some q
      rw [if_pos h]

theorem practiceBestScore_tracks_max_witness :
    List.foldl updateBest none ((60 : ℚ) :: [90, 75]) = some (List.foldl max (60 : ℚ) [90, 75])
    ∧ ∃ y, List.foldl updateBest (some (50 : ℚ)) [40, 70] = some y ∧ (50 : ℚ) ≤ y :=
  ⟨(practiceBestScore_tracks_max 60 [90, 75] (some 50) [40, 70]).1,
    (practiceBestScore_tracks_max 60 [90, 75] (some 50) [40, 70]).2.2.2.2 50 rfl⟩

/-- C7 (divergence witness): the request guard of submitPracticeAttempt does
not reject an empty answers array, because an empty JS array is truthy and
Array.isArray accepts it; the computation then produces the NaN percentage
(modelled none) from 0/0 and a false passed flag instead of a validation
rejection before any mutation. -/
theorem submitPractice_empty_answers_not_rejected :
    submitPracticeAccepted (some "topic-1") (AnswersInput.array ([] : List (Answer Nat))) = true
    ∧ (gradeAttempt ([] : List (Answer Nat))).total = 0
    ∧ (gradeAttempt ([] : List (Answer Nat))).percentage = none
    ∧ (gradeAttempt ([] : List (Answer Nat))).passed = false
    ∧ submitPracticeAccepted (some "topic-1") (AnswersInput.missing (α := Nat)) = false
    ∧ submitPracticeAccepted (some "topic-1") (AnswersInput.nonArray (α := Nat)) = false := by
  refine ⟨rfl, rfl, rfl, rfl, rfl, rfl⟩

theorem judgeServer_execution_failure_localized_witness :
    (executePiston "python"
        (sampleFailNet ((sampleFailCases.get ⟨0, by decide⟩).input.getD ""))).success = false
    ∧ ((judgeServer (fun stdin => executePiston "python" (sampleFailNet stdin))
          sampleFailCases none).2.2).length = sampleFailCases.length
    ∧ ∃ hr : 0 < ((judgeServer (fun stdin => executePiston "python" (sampleFailNet stdin))
          sampleFailCases none).2.2).length,
        (((judgeServer (fun stdin => executePiston "python" (sampleFailNet stdin))
            sampleFailCases none).2.2).get ⟨0, hr⟩).passed = false
        ∧ (((judgeServer (fun stdin => executePiston "python" (sampleFailNet stdin))
            sampleFailCases none).2.2).get ⟨0, hr⟩).actual
          = jsTrim (executePiston "python"
              (sampleFailNet ((sampleFailCases.get ⟨0, by decide⟩).input.getD ""))).output :=
  judgeServer_execution_failure_localized sampleFailNet "python" sampleFailCases none 0
    (by decide) (by decide) (by decide) (by decide)

/-- C8 (counterexample to the unconditional claim): a run whose stderr is
non-empty with empty stdout is classified as an execution failure
(execFailureMode true, success false), yet when that failure text equals the
trimmed expectedOutput the per-case comparison records the case with passed
true, so an execution failure is not always recorded as a failed case. -/
theorem executionFailure_equal_text_passes :
    execFailureMode (PistonOutcome.runData none none (some "7")) = true
    ∧ (executePiston "python" (PistonOutcome.runData none none (some "7"))).success = false
    ∧ (judgeServer (fun _ => executePiston "python" (PistonOutcome.runData none none (some "7")))
        [{ input := some "3 4", expectedOutput := some "7" }] none).1 = true
    ∧ (judgeServer (fun _ => executePiston "python" (PistonOutcome.runData none none (some "7")))
        [{ input := some "3 4", expectedOutput := some "7" }] none).2.2
      = [{ input := some "3 4", expected := "7", actual := "7", passed := true }] := by
  refine ⟨by decide, by decide, by decide, by decide⟩

/-! Helper lemmas about foldl max over ranges, for the attempt numbering. -/

theorem foldl_max_range (n : Nat) :
    ∀ s k : Nat, List.foldl max k (List.range' s (n + 1)) = max k (s + n) := by
  induction n with
  | zero =>
    intro s k
    rw [List.range'_succ]
    simp [List.range']
  | succ m ih =>
    intro s k
    rw [List.range'_succ, List.foldl_cons, ih (s + 1) (max k s), max_assoc]
    congr 1
    rw [max_eq_right (by omega)]
    omega

theorem maxAttemptNumber_range (M : Nat) :
    maxAttemptNumber (List.range' 1 (M + 1)) = some (M + 1) := by
  rw [List.range'_succ]
  show some (List.foldl max 1 (List.range' 2 M)) = some (M + 1)
  cases M with
  | zero => rfl
  | succ m =>
    rw [foldl_max_range m 2 1, max_eq_right (by omega)]
    congr 1
    omega

theorem iterate_recordAttemptNumbers (M : Nat) :
    recordAttemptNumbers^[M] [] = List.range' 1 M := by
  induction M with
  | zero => rfl
  | succ m ih =>
    rw [Function.iterate_succ_apply', ih]
    show List.range' 1 m ++ [nextAttemptNumber (List.range' 1 m)] = List.range' 1 (m + 1)
    cases m with
    | zero => rfl
    | succ k =>
      have hnext : nextAttemptNumber (List.range' 1 (k + 1)) = k + 2 := by
        unfold nextAttemptNumber
        rw [maxAttemptNumber_range k]
        rfl
      rw [hnext, show List.range' 1 (k + 2) = List.range' 1 (k + 1) ++ [1 + 1 * (k + 1)]
        from List.range'_concat 1 (k + 1)]
      congr 1
      simp
      omega

/-- C5: each sequential submitPracticeAttempt call assigns the attempt number
one more than the highest stored attempt number for the pair (0 when none
exists), so M sequential calls starting from no attempts store exactly the
numbers 1..M with no gaps or duplicates. -/
theorem attemptNumbers_sequential (M : Nat) (ns : List Nat) :
    recordAttemptNumbers^[M] [] = List.range' 1 M
    ∧ (∀ x : Nat, x ∈ recordAttemptNumbers^[M] [] ↔ 1 ≤ x ∧ x ≤ M)
    ∧ (ns ≠ [] → ∃ m, maxAttemptNumber ns = some m ∧ m ∈ ns ∧ (∀ x ∈ ns, x ≤ m)
        ∧ nextAttemptNumber ns = m + 1)
    ∧ maxAttemptNumber [] = none ∧ nextAttemptNumber [] = 1 := by
  refine ⟨iterate_recordAttemptNumbers M, ?_, ?_, rfl, rfl⟩
  · intro x
    rw [iterate_recordAttemptNumbers M, List.mem_range'_1]
    omega
  · intro hne
    cases ns with
    | nil => exact absurd rfl hne
    | cons n rest =>
      exact ⟨List.foldl max n rest, rfl, foldl_max_mem rest n, le_foldl_max rest n, rfl⟩

theorem attemptNumbers_sequential_witness :
    recordAttemptNumbers^[3] [] = List.range' 1 3
    ∧ ∃ m, maxAttemptNumber [2, 5, 3] = some m ∧ m ∈ [2, 5, 3] ∧ (∀ x ∈ [2, 5, 3], x ≤ m)
        ∧ nextAttemptNumber [2, 5, 3] = m + 1 :=
  ⟨(attemptNumbers_sequential 3 [2, 5, 3]).1,
    (attemptNumbers_sequential 3 [2, 5, 3]).2.2.1 (by decide)⟩

/-- helper: when every displayed top-50 row belongs to someone else, the
current student gets no rank from the displayed list. -/
theorem rankInTop_eq_none (view : List LeaderboardRow) (sid : Nat)
    (h : (topFifty view).all (fun x => !(x.student_id == sid)) = true) :
    rankInTop view sid = none := by
  have h0 : (topFifty view).findIdx? (fun e => e.student_id == sid) = none := by
    rw [List.findIdx?_eq_none_iff]
    intro x hx
    have hh := List.all_eq_true.mp h x hx
    simpa using hh
  unfold rankInTop
  rw [h0]

/-- C6: a learner absent from the displayed top 50 but present in the
leaderboard view receives myRank = 1 + the number of learners with strictly
greater totals (so equal totals give equal ranks), and a learner with no
view row at all receives no rank. -/
theorem getLeaderboard_myRank_resolution (view : List LeaderboardRow) :
    (∀ sid e, (topFifty view).all (fun x => !(x.student_id == sid)) = true →
        findEntry view sid = some e →
        myRank view sid = some (countGreater view e.total_points + 1))
    ∧ (∀ sid, findEntry view sid = none → myRank view sid = none)
    ∧ (∀ s₁ s₂ e₁ e₂, (topFifty view).all (fun x => !(x.student_id == s₁)) = true →
        (topFifty view).all (fun x => !(x.student_id == s₂)) = true →
        findEntry view s₁ = some e₁ → findEntry view s₂ = some e₂ →
        e₁.total_points = e₂.total_points →
        myRank view s₁ = myRank view s₂) := by
  have hmain : ∀ sid e, (topFifty view).all (fun x => !(x.student_id == sid)) = true →
      findEntry view sid = some e →
      myRank view sid = some (countGreater view e.total_points + 1) := by
    intro sid e htop hfind
    unfold myRank
    rw [rankInTop_eq_none view sid htop, hfind]
  refine ⟨hmain, ?_, ?_⟩
  · intro sid hfind
    have htop : (topFifty view).all (fun x => !(x.student_id == sid)) = true := by
      rw [List.all_eq_true]
      intro x hx
      have hxv : x ∈ view := (List.take_sublist 50 view).mem hx
      have hne := List.find?_eq_none.mp hfind x hxv
      simpa using hne
    unfold myRank
    rw [rankInTop_eq_none view sid htop, hfind]
  · intro s₁ s₂ e₁ e₂ h1 h2 hf1 hf2 heq
    rw [hmain s₁ e₁ h1 hf1, hmain s₂ e₂ h2 hf2, heq]

theorem getLeaderboard_myRank_resolution_witness :
    (topFifty sampleLeaderboardView).all (fun x => !(x.student_id == 77)) = true
    ∧ findEntry sampleLeaderboardView 77 = some { student_id := 77, total_points := 40 }
    ∧ myRank sampleLeaderboardView 77 = some (countGreater sampleLeaderboardView (40 : ℤ) + 1)
    ∧ findEntry sampleLeaderboardView 999 = none
    ∧ myRank sampleLeaderboardView 999 = none := by
  refine ⟨by decide, by decide, ?_, by decide, ?_⟩
  · exact (getLeaderboard_myRank_resolution sampleLeaderboardView).1 77
      { student_id := 77, total_points := 40 } (by decide) (by decide)
  · exact (getLeaderboard_myRank_resolution sampleLeaderboardView).2.1 999 (by decide)

/-- C9: the progress stats satisfy totalPoints = practicePoints +
codingPoints, practicePoints is the rounded sum of best percentages,
codingPoints is 100 per passed submission (hence a multiple of 100), and
topicsCompleted is the size of the union of the topic-id sets of the two
collections, counting a topic once even when it occurs in both. -/
theorem getMyProgress_points (ps : List PracticeScoreRow) (cs : List CodingSubmissionRow) :
    (getMyProgressStats ps cs).totalPoints
        = (getMyProgressStats ps cs).practicePoints + (getMyProgressStats ps cs).codingPoints
    ∧ (getMyProgressStats ps cs).practicePoints
        = jsRound (ps.foldl (fun sum p => sum + p.percentage) 0)
    ∧ (getMyProgressStats ps cs).codingPoints
        = ((cs.filter (fun c => c.passed)).length : ℤ) * 100
    ∧ (∃ k : ℤ, (getMyProgressStats ps cs).codingPoints = 100 * k)
    ∧ (getMyProgressStats ps cs).topicsCompleted
        = ((ps.map (fun p => p.topic_id)).toFinset ∪ (cs.map (fun c => c.topic_id)).toFinset).card := by
  refine ⟨rfl, rfl, rfl, ⟨((cs.filter (fun c => c.passed)).length : ℤ), ?_⟩, ?_⟩
  · show ((cs.filter (fun c => c.passed)).length : ℤ) * 100 = 100 * _
    rw [mul_comm]
  · show ((ps.map (fun p => p.topic_id)) ++ (cs.map (fun c => c.topic_id))).dedup.length = _
    rw [← List.card_toFinset, List.toFinset_append]
